import Mathlib

/-!
CryptoBridge: the reference client `frontend/src/App.js`

A shallow embedding of the React component `App` and of the pure computations it
performs, together with the conversion arithmetic of the settlement ledger the
component drives.

* JavaScript numbers are IEEE-754 doubles.  A finite double is the rational it
  denotes, the result of an arithmetic operation is the exact rational result
  rounded by `fl64` (round to nearest, ties to even, 53 bit significand,
  gradual underflow, overflow to infinity).  Signed zero is not distinguished.
* The component state is the record of its eleven `useState` cells.  A handler
  is a function from the state in which it was invoked to the state after all
  its `set...` calls, paired with the list of contract calls it issued, in
  order.  The answers of the outside world (the contract, the wallet) are
  arguments of the handler.  Handlers run one at a time, to completion.
* `web3.utils` is library code outside the repository; the handlers take it as
  the record `Web3Utils`.  The instance `web3` gives its behaviour on the
  inputs the examples use.
* The contract itself is not among the sources; its conversion arithmetic is
  taken from the specification.
-/

namespace CryptoBridge

/-! ## JavaScript numbers -/

/-- A JavaScript Number: a finite double (as the rational it denotes), an
infinity, or NaN. -/
inductive JsNum where
  | fin (q : ℚ)
  | inf (neg : Bool)
  | nan
  deriving DecidableEq

/-- Round a rational to the nearest integer, ties to the even neighbour. -/
def roundHalfEven (q : ℚ) : ℤ :=
  if q - ⌊q⌋ < 1 / 2 then ⌊q⌋
  else if 1 / 2 < q - ⌊q⌋ then ⌊q⌋ + 1
  else if ⌊q⌋ % 2 = 0 then ⌊q⌋ else ⌊q⌋ + 1

/-- The binary exponent used to represent `q` as a double: the exponent of the
leading bit, not below the exponent `-1022` of the subnormal range. -/
def binExp (q : ℚ) : ℤ := max (Int.log 2 |q|) (-1022)

/-- The spacing of doubles around `q`: one unit in the last of 53 places. -/
def ulp (q : ℚ) : ℚ := (2 : ℚ) ^ (binExp q - 52)

/-- IEEE-754 binary64 rounding of an exact result `q`, round to nearest, ties to
even; a rounded magnitude of `2 ^ 1024` or more overflows to an infinity. -/
def fl64 (q : ℚ) : JsNum :=
  if q = 0 then .fin 0
  else if |(roundHalfEven (q / ulp q) : ℚ) * ulp q| < 2 ^ 1024 then
    .fin (roundHalfEven (q / ulp q) * ulp q)
  else .inf (decide (q < 0))

/-- The JavaScript operator `/` on numbers. -/
def JsNum.div : JsNum → JsNum → JsNum
  | .nan, _ => .nan
  | _, .nan => .nan
  | .inf _, .inf _ => .nan
  | .inf s, .fin b => .inf (s != decide (b < 0))
  | .fin _, .inf _ => .fin 0
  | .fin a, .fin b =>
      if b = 0 then (if a = 0 then .nan else .inf (decide (a < 0)))
      else fl64 (a / b)

/-- The JavaScript operator `*` on numbers. -/
def JsNum.mul : JsNum → JsNum → JsNum
  | .nan, _ => .nan
  | _, .nan => .nan
  | .inf s, .inf t => .inf (s != t)
  | .inf s, .fin b => if b = 0 then .nan else .inf (s != decide (b < 0))
  | .fin a, .inf t => if a = 0 then .nan else .inf (decide (a < 0) != t)
  | .fin a, .fin b => fl64 (a * b)

/-- The expression `(amount / ethPrice) * 1e8` of `getEthEquivalent`. -/
def ethEquivalentOf (amount ethPrice : JsNum) : JsNum :=
  (amount.div ethPrice).mul (.fin 100000000)

/-! ## `Number.prototype.toFixed(6)` -/

/-- The integer `n` for which `n / 10 ^ 6 - x` is as close to zero as possible,
the larger one when there are two (ECMAScript, Number.prototype.toFixed, for
`x ≥ 0`). -/
def toFixedUnits (x : ℚ) : ℕ := ⌊x * 10 ^ 6 + 1 / 2⌋.toNat

/-- The six fraction digits of `toFixed(6)`: `k < 10 ^ 6` padded with zeros on
the left. -/
def pad6 (k : ℕ) : String :=
  String.mk (List.replicate (6 - (Nat.repr k).length) '0') ++ Nat.repr k

/-- The decimal string of `n / 10 ^ 6` with exactly six fraction digits. -/
def fixedString (n : ℕ) : String :=
  Nat.repr (n / 10 ^ 6) ++ "." ++ pad6 (n % 10 ^ 6)

/-- The method `x.toFixed(6)`.  A negative `x` is formatted as `-` followed by
the formatting of `-x`; from `10 ^ 21` on, and for NaN and the infinities, the
result is the plain string conversion of the number, whose text for a large
finite value is supplied by `big`. -/
def toFixed6 (big : ℚ → String) : JsNum → String
  | .nan => "NaN"
  | .inf false => "Infinity"
  | .inf true => "-Infinity"
  | .fin x =>
      if x < 0 then
        "-" ++ (if 10 ^ 21 ≤ -x then big (-x) else fixedString (toFixedUnits (-x)))
      else (if 10 ^ 21 ≤ x then big x else fixedString (toFixedUnits x))

/-! ## The component state and the outside world -/

/-- The content of a state cell that `useState(0)` initialises and that every
later `set...` call fills with a string (`balanceINR`, `balanceBDT`,
`ethEquivalent`): the number `0`, or a string. -/
inductive JsVal where
  | zero
  | str (s : String)
  deriving DecidableEq

/-- The functions of `web3.utils` the component calls, with the unit fixed to
`ether`.  `toWei` and `fromWei` either return or throw an error with a message;
the decimal string `toWei` returns is represented by the integer it denotes. -/
structure Web3Utils where
  toWei : JsVal → Except String ℤ
  fromWei : String → Except String String
  asciiToHex : String → String

/-- A call on the deployed contract, as built from `contract.methods`.
`source` is the `from` field of a `send`. -/
inductive Call where
  | balances (account : Option String) (currency : String)
  | getLatestETHINRPrice
  | getLatestETHBDTPrice
  | deposit (currency : String) (source : Option String) (value : ℤ)
  | withdraw (amount : ℤ) (currency : String) (source : Option String)
  | sendCrossBorderPayment (receiver : String) (amount : ℤ)
      (fromCurrency toCurrency : String) (source : Option String)
  deriving DecidableEq

/-- How the contract answers a call: the returned value, or the message of the
error the awaited promise rejects with. -/
abbrev World := Call → Except String String

/-- The eleven `useState` cells of `App`.  `contract` and `web3` record whether
the cell holds an instance (`true`) or still `null`; `account` is `none` when
it holds `undefined`. -/
structure AppState where
  account : Option String
  contract : Bool
  web3 : Bool
  amount : String
  currency : String
  receiver : String
  balanceINR : JsVal
  balanceBDT : JsVal
  message : String
  ethEquivalent : JsVal
  messageType : String
  deriving DecidableEq

/-- The initial values passed to `useState`. -/
def AppState.initial : AppState where
  account := some ""
  contract := false
  web3 := false
  amount := ""
  currency := "INR"
  receiver := ""
  balanceINR := .zero
  balanceBDT := .zero
  message := ""
  ethEquivalent := .zero
  messageType := "info"

/-- The two statements of every `catch` block: `setMessage` with a fixed text
followed by `error.message`, then `setMessageType` with the text error. -/
def AppState.fail (s : AppState) (context msg : String) : AppState :=
  { s with message := context ++ msg, messageType := "error" }

/-- Message of the TypeError raised by `x.utils` when `x` is `undefined`. -/
def undefinedUtils : String := "Cannot read properties of undefined (reading \x27utils\x27)"

/-- Message of the TypeError raised by `x.utils` when `x` is `null`. -/
def nullUtils : String := "Cannot read properties of null (reading \x27utils\x27)"

/-- Message of the TypeError raised by `x.methods` when `x` is `null`. -/
def nullMethods : String := "Cannot read properties of null (reading \x27methods\x27)"

/-! ## The handlers -/

/-- The function `getBalances(contractInstance, accountAddress, web3Instance)`.
`web3Instance` is `none` when the argument is omitted (`undefined`), else whether
it is an instance or `null`. -/
def getBalances (u : Web3Utils) (w : World) (contractInstance : Bool)
    (accountAddress : Option String) (web3Instance : Option Bool) (s : AppState) :
    AppState × List Call :=
  if !contractInstance then (s.fail "Error fetching balances: " nullMethods, [])
  else match web3Instance with
  | none => (s.fail "Error fetching balances: " undefinedUtils, [])
  | some false => (s.fail "Error fetching balances: " nullUtils, [])
  | some true =>
    let c1 := Call.balances accountAddress (u.asciiToHex "INR")
    match w c1 with
    | .error e => (s.fail "Error fetching balances: " e, [c1])
    | .ok inrBalance =>
      let c2 := Call.balances accountAddress (u.asciiToHex "BDT")
      match w c2 with
      | .error e => (s.fail "Error fetching balances: " e, [c1, c2])
      | .ok bdtBalance =>
        match u.fromWei inrBalance with
        | .error e => (s.fail "Error fetching balances: " e, [c1, c2])
        | .ok inr =>
          let s1 := { s with balanceINR := .str inr }
          match u.fromWei bdtBalance with
          | .error e => (s1.fail "Error fetching balances: " e, [c1, c2])
          | .ok bdt => ({ s1 with balanceBDT := .str bdt }, [c1, c2])

/-- The function `getEthEquivalent(amount, currency)`.  The operator `/`
converts its string operands with `toNumber`; for a currency that is neither
code `ethPrice` stays `undefined`, which the division reads as NaN. -/
def getEthEquivalent (toNumber : String → JsNum) (big : ℚ → String) (w : World)
    (amount currency : String) (s : AppState) : AppState × List Call :=
  let store (ethPrice : JsNum) : AppState :=
    { s with ethEquivalent :=
        JsVal.str (toFixed6 big (ethEquivalentOf (toNumber amount) ethPrice)) }
  if currency = "INR" then
    if !s.contract then (s.fail "Error fetching ETH equivalent: " nullMethods, [])
    else match w .getLatestETHINRPrice with
    | .error e => (s.fail "Error fetching ETH equivalent: " e, [.getLatestETHINRPrice])
    | .ok p => (store (toNumber p), [.getLatestETHINRPrice])
  else if currency = "BDT" then
    if !s.contract then (s.fail "Error fetching ETH equivalent: " nullMethods, [])
    else match w .getLatestETHBDTPrice with
    | .error e => (s.fail "Error fetching ETH equivalent: " e, [.getLatestETHBDTPrice])
    | .ok p => (store (toNumber p), [.getLatestETHBDTPrice])
  else (store .nan, [])

/-- The handler `deposit`. -/
def deposit (u : Web3Utils) (w : World) (s : AppState) : AppState × List Call :=
  if s.contract && s.amount != "" then
    if !s.web3 then (s.fail "Error depositing funds: " nullUtils, [])
    else match u.toWei s.ethEquivalent with
    | .error e => (s.fail "Error depositing funds: " e, [])
    | .ok weiAmount =>
      let c := Call.deposit s.currency s.account weiAmount
      match w c with
      | .error e => (s.fail "Error depositing funds: " e, [c])
      | .ok _ =>
        let s1 := { s with
          message := "Deposited " ++ s.amount ++ " " ++ s.currency ++ ".",
          messageType := "success" }
        let r := getBalances u w s.contract s.account (some s.web3) s1
        (r.1, c :: r.2)
  else (s, [])

/-- The handler `withdraw`. -/
def withdraw (u : Web3Utils) (w : World) (s : AppState) : AppState × List Call :=
  if s.contract && s.amount != "" then
    if !s.web3 then (s.fail "Error withdrawing funds: " nullUtils, [])
    else match u.toWei (.str s.amount) with
    | .error e => (s.fail "Error withdrawing funds: " e, [])
    | .ok weiAmount =>
      let c := Call.withdraw weiAmount s.currency s.account
      match w c with
      | .error e => (s.fail "Error withdrawing funds: " e, [c])
      | .ok _ =>
        let s1 := { s with
          message := "Withdrew " ++ s.amount ++ " " ++ s.currency ++ ".",
          messageType := "success" }
        let r := getBalances u w s.contract s.account (some s.web3) s1
        (r.1, c :: r.2)
  else (s, [])

/-- The expression `currency === INR ? BDT : INR` of `sendCrossBorderPayment`. -/
def toCurrency (currency : String) : String :=
  if currency = "INR" then "BDT" else "INR"

/-- The handler `sendCrossBorderPayment`.  Its call of `getBalances` passes two
arguments, so `web3Instance` is `undefined` there. -/
def sendCrossBorderPayment (u : Web3Utils) (w : World) (s : AppState) :
    AppState × List Call :=
  if s.contract && s.receiver != "" && s.amount != "" then
    if !s.web3 then (s.fail "Error sending payment: " nullUtils, [])
    else match u.toWei s.ethEquivalent with
    | .error e => (s.fail "Error sending payment: " e, [])
    | .ok weiAmount =>
      let c := Call.sendCrossBorderPayment s.receiver weiAmount s.currency
        (toCurrency s.currency) s.account
      match w c with
      | .error e => (s.fail "Error sending payment: " e, [c])
      | .ok _ =>
        let s1 := { s with
          message := "Cross-border payment successful!",
          messageType := "success" }
        let r := getBalances u w s.contract s.account none s1
        (r.1, c :: r.2)
  else (s, [])

/-- The effect `init`, run once when the component mounts.  `hasEthereum` is
whether `window.ethereum` is present, `enable` and `accounts` are the outcomes
of `window.ethereum.enable()` and `web3.eth.getAccounts()`.  The `alert` of the
other branch changes neither the state nor the contract. -/
def init (u : Web3Utils) (w : World) (hasEthereum : Bool) (enable : Except String Unit)
    (accounts : Except String (List String)) (s : AppState) : AppState × List Call :=
  if hasEthereum then
    match enable with
    | .error e => (s.fail "Error initializing Web3: " e, [])
    | .ok _ =>
      let s1 := { s with web3 := true }
      match accounts with
      | .error e => (s1.fail "Error initializing Web3: " e, [])
      | .ok as =>
        let s2 := { s1 with account := as.head?, contract := true }
        getBalances u w true as.head? (some true) s2
  else (s, [])

/-- What can happen to the mounted component: the mount effect, an edit of one
of the three inputs, a click on one of the three buttons. -/
inductive Event where
  | init (hasEthereum : Bool) (enable : Except String Unit)
      (accounts : Except String (List String))
  | setAmount (v : String)
  | setCurrency (v : String)
  | setReceiver (v : String)
  | deposit
  | withdraw
  | sendCrossBorderPayment

/-- One event, with the answers of the world during it. -/
def step (u : Web3Utils) (w : World) (s : AppState) : Event → AppState × List Call
  | .init h e a => init u w h e a s
  | .setAmount v => ({ s with amount := v }, [])
  | .setCurrency v => ({ s with currency := v }, [])
  | .setReceiver v => ({ s with receiver := v }, [])
  | .deposit => deposit u w s
  | .withdraw => withdraw u w s
  | .sendCrossBorderPayment => sendCrossBorderPayment u w s

/-- A run of the component from a state: each event comes with the world that
answers it.  The result is the final state and all the calls issued. -/
def run (u : Web3Utils) (s : AppState) : List (World × Event) → AppState × List Call
  | [] => (s, [])
  | (w, e) :: rest =>
    let r := step u w s e
    let r2 := run u r.1 rest
    (r2.1, r.2 ++ r2.2)

/-! ## The library instance used in the examples -/

/-- The number a list of decimal digits denotes. -/
def digitsToNat (cs : List Char) : ℕ :=
  cs.foldl (fun n c => 10 * n + (c.toNat - 48)) 0

/-- The function `toWei(input, ether)` on a string, as `ethjs-unit` (the
converter behind `web3.utils.toWei`) computes it: an optional minus sign, a
whole part and at most 18 fraction digits; the sign is kept.  The texts of the
error messages are shortened. -/
def toWeiString (input : String) : Except String ℤ :=
  let negative : Bool := input.toList.head? == some '-'
  let ether : List Char := if negative then input.toList.drop 1 else input.toList
  if ether.isEmpty || !ether.all (fun c => c.isDigit || c == '.') then
    .error "invalid number value"
  else if ether == ['.'] then .error "invalid value"
  else if 1 < ether.count '.' then .error "too many decimal points"
  else
    let whole := ether.takeWhile (fun c => c != '.')
    let fraction := (ether.dropWhile (fun c => c != '.')).drop 1
    if 18 < fraction.length then .error "too many decimal places"
    else
      let wei : ℤ := digitsToNat whole * 10 ^ 18 +
        digitsToNat (fraction ++ List.replicate (18 - fraction.length) '0')
      .ok (if negative then -wei else wei)

/-- Remove the trailing zeros of a fraction, keeping one digit. -/
def stripZeros (cs : List Char) : List Char :=
  match (cs.reverse.dropWhile (fun c => c == '0')).reverse with
  | [] => ['0']
  | ds => ds

/-- The function `fromWei(input, ether)` on the decimal string a `uint256` call
returns: the whole part, then the fraction without trailing zeros when it is
not zero. -/
def fromWeiString (input : String) : Except String String :=
  if input.isEmpty || !input.toList.all Char.isDigit then .error "invalid number value"
  else
    let wei := digitsToNat input.toList
    let f := Nat.repr (wei % 10 ^ 18)
    let fraction := stripZeros (List.replicate (18 - f.length) '0' ++ f.toList)
    .ok (Nat.repr (wei / 10 ^ 18) ++ (if fraction == ['0'] then "" else "." ++ String.mk fraction))

/-- The function `asciiToHex(str)`: `0x` followed by the code of every character
in hexadecimal, at least two digits each. -/
def asciiToHexString (str : String) : String :=
  "0x" ++ String.mk (str.toList.flatMap fun c =>
    let h := Nat.toDigits 16 c.toNat
    if h.length < 2 then '0' :: h else h)

/-- An instance of `web3.utils`.  The number `0` is converted like the string
`0` (web3 4.x; web3 1.x throws on a number argument instead). -/
def web3 : Web3Utils where
  toWei := fun v => match v with
    | .zero => toWeiString "0"
    | .str a => toWeiString a
  fromWei := fromWeiString
  asciiToHex := asciiToHexString

/-- The conversion of a string to a number, for a string of decimal digits: the
double nearest to the integer it denotes.  Strings of another form do not occur
in the examples and are read as NaN here. -/
def toNumberDigits (text : String) : JsNum :=
  if !text.isEmpty && text.toList.all Char.isDigit then fl64 (digitsToNat text.toList)
  else .nan

/-! ## The conversion arithmetic of the ledger -/

/-- Modelled from the spec: the contract sources are missing; the scale factor
is the fixed integer `10 ^ 8`. -/
def scaleFactor : ℕ := 10 ^ 8

/-- Modelled from the spec: the contract sources are missing; step 3 of the
transfer engine computes `nativeEquivalent = amount * scaleFactor / priceFrom`,
rounding down. -/
def nativeEquivalent (amount priceFrom : ℕ) : ℕ := amount * scaleFactor / priceFrom

/-- Modelled from the spec: the contract sources are missing; step 3 of the
transfer engine computes `creditedAmount = nativeEquivalent * priceTo /
scaleFactor`, rounding down. -/
def creditedAmount (native priceTo : ℕ) : ℕ := native * priceTo / scaleFactor

/-! ## Reading a call -/

/-- The amount a call carries: the `value` of a deposit, the amount argument of
a withdrawal or of a payment. -/
def Call.amount? : Call → Option ℤ
  | .deposit _ _ v => some v
  | .withdraw a _ _ => some a
  | .sendCrossBorderPayment _ a _ _ _ => some a
  | _ => none

/-- The currency codes a call passes, in argument order. -/
def Call.currencies : Call → List String
  | .balances _ c => [c]
  | .deposit c _ _ => [c]
  | .withdraw _ c _ => [c]
  | .sendCrossBorderPayment _ _ f t _ => [f, t]
  | _ => []

/-! ## A sample session -/

/-- A world in which every call succeeds and returns the text 0. -/
def calm : World := fun _ => .ok "0"

/-- A world in which the contract reverts every deposit, withdrawal and payment
and answers every read with the text 0. -/
def reverting : World
  | .deposit _ _ _ => .error "execution reverted"
  | .withdraw _ _ _ => .error "execution reverted"
  | .sendCrossBorderPayment _ _ _ _ _ => .error "execution reverted"
  | _ => .ok "0"

/-- The mount effect with a wallet that grants access to the account 0xA1, in
the calm world. -/
def connect : World × Event := (calm, .init true (.ok ()) (.ok ["0xA1"]))

/-- The state after `connect`: wallet and contract set, balances read. -/
def connected : AppState := (run web3 AppState.initial [connect]).1

/-! ## Rounding -/

theorem roundHalfEven_intCast (n : ℤ) : roundHalfEven (n : ℚ) = n := by
  simp [roundHalfEven]

theorem roundHalfEven_nonneg {q : ℚ} (hq : 0 ≤ q) : 0 ≤ roundHalfEven q := by
  have hf : 0 ≤ ⌊q⌋ := Int.floor_nonneg.mpr hq
  unfold roundHalfEven
  split_ifs <;> omega

theorem ulp_pos (q : ℚ) : 0 < ulp q := by
  unfold ulp
  positivity

/-- A value `m * 2 ^ k` with a significand below `2 ^ 53`, an exponent in the
range of the format is a double: rounding leaves it as it is. -/
theorem fl64_exact (m k : ℤ) (hm : |m| < 2 ^ 53) (hk : -1074 ≤ k) (hk2 : k ≤ 971) :
    fl64 ((m : ℚ) * 2 ^ k) = .fin ((m : ℚ) * 2 ^ k) := by
  by_cases h0 : (m : ℚ) * 2 ^ k = 0
  · simp [fl64, h0]
  have hm0 : (m : ℚ) ≠ 0 := fun h => h0 (by simp [h])
  have h2k : (0 : ℚ) < 2 ^ k := by positivity
  have habs : |(m : ℚ) * 2 ^ k| < (2 : ℚ) ^ (k + 53) := by
    rw [abs_mul, abs_of_pos h2k, zpow_add₀ (by norm_num : (2 : ℚ) ≠ 0), mul_comm]
    have : |(m : ℚ)| < 2 ^ 53 := by exact_mod_cast hm
    have h53 : ((2 : ℚ) ^ (53 : ℤ)) = 2 ^ 53 := by norm_num
    rw [h53]
    exact mul_lt_mul_of_pos_left this h2k
  have hq : |(m : ℚ) * 2 ^ k| < 2 ^ 1024 := by
    have h1 : (2 : ℚ) ^ (k + 53) ≤ 2 ^ ((1024 : ℕ) : ℤ) :=
      zpow_le_zpow_right₀ (by norm_num) (by push_cast; omega)
    rw [zpow_natCast] at h1
    exact lt_of_lt_of_le habs h1
  have hlog : Int.log 2 |(m : ℚ) * 2 ^ k| < k + 53 := by
    have := (Int.lt_zpow_iff_log_lt (b := 2) (by norm_num) (abs_pos.mpr h0)).1
      (by exact_mod_cast habs)
    exact this
  have hexp : binExp ((m : ℚ) * 2 ^ k) - 52 ≤ k := by
    unfold binExp
    have : max (Int.log 2 |(m : ℚ) * 2 ^ k|) (-1022) ≤ k + 52 := max_le (by omega) (by omega)
    omega
  obtain ⟨j, hj⟩ : ∃ j : ℕ, k = binExp ((m : ℚ) * 2 ^ k) - 52 + j :=
    ⟨(k - (binExp ((m : ℚ) * 2 ^ k) - 52)).toNat, by omega⟩
  have hdiv : (m : ℚ) * 2 ^ k / ulp ((m : ℚ) * 2 ^ k) = ((m * 2 ^ j : ℤ) : ℚ) := by
    unfold ulp
    have hne : ((2 : ℚ) ^ (binExp ((m : ℚ) * 2 ^ k) - 52)) ≠ 0 := by positivity
    rw [div_eq_iff hne]
    conv_lhs => rw [hj]
    rw [zpow_add₀ (by norm_num : (2 : ℚ) ≠ 0), zpow_natCast]
    push_cast
    ring
  have hround : (roundHalfEven ((m : ℚ) * 2 ^ k / ulp ((m : ℚ) * 2 ^ k)) : ℚ) *
      ulp ((m : ℚ) * 2 ^ k) = (m : ℚ) * 2 ^ k := by
    rw [hdiv, roundHalfEven_intCast, ← hdiv]
    exact div_mul_cancel₀ _ (ulp_pos _).ne'
  unfold fl64
  rw [if_neg h0, hround, if_pos hq]

theorem div_fin (a b : ℚ) (hb : b ≠ 0) : JsNum.div (.fin a) (.fin b) = fl64 (a / b) := by
  simp [JsNum.div, hb]

theorem mul_fin (a b : ℚ) : JsNum.mul (.fin a) (.fin b) = fl64 (a * b) := by
  simp [JsNum.mul]

theorem fl64_nonneg {q v : ℚ} (hq : 0 ≤ q) (h : fl64 q = .fin v) : 0 ≤ v := by
  unfold fl64 at h
  split_ifs at h with h0 hlt
  · cases h; exact le_rfl
  · cases h
    have : 0 ≤ roundHalfEven (q / ulp q) := roundHalfEven_nonneg (div_nonneg hq (ulp_pos q).le)
    have h2 : (0 : ℚ) ≤ roundHalfEven (q / ulp q) := by exact_mod_cast this
    exact mul_nonneg h2 (ulp_pos q).le

theorem toFixedUnits_le {x : ℚ} (hx : 0 ≤ x) : (toFixedUnits x : ℚ) ≤ x * 10 ^ 6 + 1 / 2 := by
  unfold toFixedUnits
  have h0 : 0 ≤ ⌊x * 10 ^ 6 + 1 / 2⌋ := Int.floor_nonneg.mpr (by positivity)
  have : ((⌊x * 10 ^ 6 + 1 / 2⌋.toNat : ℤ) : ℚ) = (⌊x * 10 ^ 6 + 1 / 2⌋ : ℚ) := by
    rw [Int.toNat_of_nonneg h0]
  rw [show ((⌊x * 10 ^ 6 + 1 / 2⌋.toNat : ℕ) : ℚ) = ((⌊x * 10 ^ 6 + 1 / 2⌋.toNat : ℤ) : ℚ) by norm_cast]
  rw [this]
  exact Int.floor_le _

theorem toFixedUnits_gt {x : ℚ} (hx : 0 ≤ x) : x * 10 ^ 6 - 1 / 2 < (toFixedUnits x : ℚ) := by
  unfold toFixedUnits
  have h0 : 0 ≤ ⌊x * 10 ^ 6 + 1 / 2⌋ := Int.floor_nonneg.mpr (by positivity)
  have : ((⌊x * 10 ^ 6 + 1 / 2⌋.toNat : ℤ) : ℚ) = (⌊x * 10 ^ 6 + 1 / 2⌋ : ℚ) := by
    rw [Int.toNat_of_nonneg h0]
  rw [show ((⌊x * 10 ^ 6 + 1 / 2⌋.toNat : ℕ) : ℚ) = ((⌊x * 10 ^ 6 + 1 / 2⌋.toNat : ℤ) : ℚ) by norm_cast]
  rw [this]
  have := Int.lt_floor_add_one (x * 10 ^ 6 + 1 / 2)
  linarith


theorem fl64_error {q v : ℚ} (h : fl64 q = .fin v) : |v - q| ≤ ulp q / 2 := by
  have hu := ulp_pos q
  have key : |(roundHalfEven (q / ulp q) : ℚ) - q / ulp q| ≤ 1 / 2 := by
    have h1 := Int.floor_le (q / ulp q)
    have h2 := Int.lt_floor_add_one (q / ulp q)
    unfold roundHalfEven
    rw [abs_le]
    split_ifs with c1 c2 c3 <;> push_cast <;> constructor <;> linarith
  unfold fl64 at h
  split_ifs at h with h0 hlt
  · cases h; subst h0; rw [sub_self, abs_zero]; exact (half_pos hu).le
  · cases h
    have : (roundHalfEven (q / ulp q) : ℚ) * ulp q - q =
        ((roundHalfEven (q / ulp q) : ℚ) - q / ulp q) * ulp q := by
      field_simp
    rw [this, abs_mul, abs_of_pos hu]
    calc |(roundHalfEven (q / ulp q) : ℚ) - q / ulp q| * ulp q ≤ 1 / 2 * ulp q :=
          mul_le_mul_of_nonneg_right key hu.le
      _ = ulp q / 2 := by ring

theorem ethEquivalentOf_fin {a p v : ℚ} (hp : 0 < p)
    (hv : ethEquivalentOf (.fin a) (.fin p) = .fin v) :
    ∃ v1, fl64 (a / p) = .fin v1 ∧ fl64 (v1 * 100000000) = .fin v := by
  unfold ethEquivalentOf at hv
  rw [div_fin _ _ hp.ne'] at hv
  cases h1 : fl64 (a / p) with
  | fin v1 =>
    rw [h1] at hv
    exact ⟨v1, rfl, by simpa [JsNum.mul] using hv⟩
  | inf s => rw [h1] at hv; simp [JsNum.mul] at hv
  | nan => rw [h1] at hv; simp [JsNum.mul] at hv

theorem ethEquivalentOf_nonneg {a p v : ℚ} (ha : 0 ≤ a) (hp : 0 < p)
    (hv : ethEquivalentOf (.fin a) (.fin p) = .fin v) : 0 ≤ v := by
  obtain ⟨v1, h1, h2⟩ := ethEquivalentOf_fin hp hv
  have hv1 : 0 ≤ v1 := fl64_nonneg (div_nonneg ha hp.le) h1
  exact fl64_nonneg (mul_nonneg hv1 (by norm_num)) h2

/-- The computed value differs from the exact quotient by the rounding of the
two floating-point operations only. -/
theorem ethEquivalentOf_error {a p v : ℚ} (hp : 0 < p)
    (hv : ethEquivalentOf (.fin a) (.fin p) = .fin v) :
    ∃ v1, fl64 (a / p) = .fin v1 ∧
      |v - a * 10 ^ 8 / p| ≤ ulp (v1 * 100000000) / 2 + 10 ^ 8 * (ulp (a / p) / 2) := by
  obtain ⟨v1, h1, h2⟩ := ethEquivalentOf_fin hp hv
  refine ⟨v1, h1, ?_⟩
  have e1 := fl64_error h1
  have e2 := fl64_error h2
  have : v - a * 10 ^ 8 / p = (v - v1 * 100000000) + 10 ^ 8 * (v1 - a / p) := by ring
  rw [this]
  calc |(v - v1 * 100000000) + 10 ^ 8 * (v1 - a / p)|
      ≤ |v - v1 * 100000000| + |10 ^ 8 * (v1 - a / p)| := abs_add _ _
    _ = |v - v1 * 100000000| + 10 ^ 8 * |v1 - a / p| := by
        rw [abs_mul, abs_of_pos (by norm_num : (0 : ℚ) < 10 ^ 8)]
    _ ≤ ulp (v1 * 100000000) / 2 + 10 ^ 8 * (ulp (a / p) / 2) := by
        have := mul_le_mul_of_nonneg_left e1 (by norm_num : (0 : ℚ) ≤ 10 ^ 8)
        linarith

theorem fl64_example_div : fl64 ((1 : ℚ) / 35184372088832) = .fin (1 / 35184372088832) := by
  have := fl64_exact 1 (-45) (by norm_num) (by norm_num) (by norm_num)
  have e : ((1 : ℤ) : ℚ) * 2 ^ (-45 : ℤ) = 1 / 35184372088832 := by norm_num
  rwa [e] at this

theorem fl64_example_mul :
    fl64 ((1 : ℚ) / 35184372088832 * 100000000) = .fin (390625 / 137438953472) := by
  have := fl64_exact 390625 (-37) (by norm_num) (by norm_num) (by norm_num)
  have e : ((390625 : ℤ) : ℚ) * 2 ^ (-37 : ℤ) = 390625 / 137438953472 := by norm_num
  have e2 : ((1 : ℚ) / 35184372088832 * 100000000) = 390625 / 137438953472 := by norm_num
  rw [e2]
  rwa [e] at this

theorem ethEquivalentOf_example :
    ethEquivalentOf (.fin 1) (.fin 35184372088832) = .fin (390625 / 137438953472) := by
  unfold ethEquivalentOf
  rw [div_fin _ _ (by norm_num), fl64_example_div, mul_fin, fl64_example_mul]

theorem toFixedUnits_example : toFixedUnits (390625 / 137438953472) = 3 := by
  unfold toFixedUnits
  have : ⌊(390625 / 137438953472 : ℚ) * 10 ^ 6 + 1 / 2⌋ = 3 := by
    rw [Int.floor_eq_iff]
    constructor <;> norm_num
  rw [this]
  rfl


theorem toFixed6_fin (big : ℚ → String) {x : ℚ} (h0 : 0 ≤ x) (h : x < 10 ^ 21) :
    toFixed6 big (.fin x) = fixedString (toFixedUnits x) := by
  simp [toFixed6, not_lt.mpr h0, not_le.mpr h]

/-! ## C1: what `getEthEquivalent` stores -/

/-- With the contract set, a price answer and operands that convert to finite
numbers, `getEthEquivalent` stores `toFixed(6)` of the computed value and
changes nothing else. -/
theorem getEthEquivalent_stores (toNumber : String → JsNum) (big : ℚ → String) (w : World)
    (amount currency priceText : String) (s : AppState) (hs : s.contract = true)
    (hcur : (currency = "INR" ∧ w .getLatestETHINRPrice = .ok priceText) ∨
      (currency = "BDT" ∧ w .getLatestETHBDTPrice = .ok priceText)) :
    (getEthEquivalent toNumber big w amount currency s).1 =
      { s with ethEquivalent :=
          JsVal.str (toFixed6 big (ethEquivalentOf (toNumber amount) (toNumber priceText))) } := by
  rcases hcur with ⟨h, hw⟩ | ⟨h, hw⟩
  · subst h
    simp [getEthEquivalent, hs, hw]
  · subst h
    simp [getEthEquivalent, hs, hw]

theorem toNumberDigits_one : toNumberDigits "1" = .fin 1 := by
  have h := fl64_exact 1 0 (by norm_num) (by norm_num) (by norm_num)
  have e : ((1 : ℤ) : ℚ) * 2 ^ (0 : ℤ) = ((digitsToNat "1".toList : ℕ) : ℚ) := by
    have : digitsToNat "1".toList = 1 := by decide
    rw [this]
    norm_num
  rw [e] at h
  have hd : (!"1".isEmpty && "1".toList.all Char.isDigit) = true := by decide
  unfold toNumberDigits
  rw [if_pos hd, h]
  have : digitsToNat "1".toList = 1 := by decide
  rw [this]
  norm_num

theorem toNumberDigits_price : toNumberDigits "35184372088832" = .fin 35184372088832 := by
  have h := fl64_exact 1 45 (by norm_num) (by norm_num) (by norm_num)
  have hn : digitsToNat "35184372088832".toList = 35184372088832 := by decide
  have e : ((1 : ℤ) : ℚ) * 2 ^ (45 : ℤ) = ((digitsToNat "35184372088832".toList : ℕ) : ℚ) := by
    rw [hn]
    norm_num
  rw [e] at h
  have hd : (!"35184372088832".isEmpty && "35184372088832".toList.all Char.isDigit) = true := by
    decide
  unfold toNumberDigits
  rw [if_pos hd, h, hn]
  norm_num

/-- C1, as stated, fails: for the amount 1 and the price 35184372088832 (that is
`2 ^ 45`) both floating-point operations are exact, the computed value is
`390625 / 137438953472`, about 0.00000284, and `toFixed(6)` turns it into the
text 0.000003, which `getEthEquivalent` stores and which exceeds the exact
quotient `1 * 10 ^ 8 / 35184372088832`. -/
theorem getEthEquivalent_exceeds_quotient :
    ethEquivalentOf (.fin 1) (.fin 35184372088832) = .fin (390625 / 137438953472) ∧
    (getEthEquivalent toNumberDigits (fun _ => "") (fun _ => .ok "35184372088832") "1" "INR"
        connected).1.ethEquivalent = .str "0.000003" ∧
    (1 : ℚ) * 10 ^ 8 / 35184372088832 < 3 / 10 ^ 6 := by
  refine ⟨ethEquivalentOf_example, ?_, by norm_num⟩
  rw [getEthEquivalent_stores toNumberDigits _ _ "1" "INR" "35184372088832" connected
    (by decide) (Or.inl ⟨rfl, rfl⟩)]
  rw [toNumberDigits_one, toNumberDigits_price, ethEquivalentOf_example,
    toFixed6_fin _ (by norm_num) (by norm_num), toFixedUnits_example]
  rfl

/-- C1, amended: for an amount that reads as a number `a ≥ 0` and a price answer
that reads as a number `p > 0`, when the computed value `v = (a / p) * 1e8` is
finite and below `10 ^ 21`, the text `getEthEquivalent` stores is `v` rounded to
the nearest multiple of `10 ^ -6`, a tie going upward: its number `n` of
millionths satisfies `v * 10 ^ 6 - 1 / 2 < n ≤ v * 10 ^ 6 + 1 / 2`, so the stored
value may exceed `v` by up to half a millionth.  The distance of `v` itself from
the exact quotient `a * 10 ^ 8 / p` is the rounding of the two floating-point
operations, at most half a unit in the last place each. -/
theorem getEthEquivalent_rounds_to_nearest (toNumber : String → JsNum) (big : ℚ → String)
    (w : World) (amount currency priceText : String) (s : AppState) (a p v : ℚ)
    (hs : s.contract = true)
    (hcur : (currency = "INR" ∧ w .getLatestETHINRPrice = .ok priceText) ∨
      (currency = "BDT" ∧ w .getLatestETHBDTPrice = .ok priceText))
    (hA : toNumber amount = .fin a) (hP : toNumber priceText = .fin p)
    (ha : 0 ≤ a) (hp : 0 < p) (hv : ethEquivalentOf (.fin a) (.fin p) = .fin v)
    (hbig : v < 10 ^ 21) :
    0 ≤ v ∧
    (getEthEquivalent toNumber big w amount currency s).1 =
      { s with ethEquivalent := JsVal.str (fixedString (toFixedUnits v)) } ∧
    v * 10 ^ 6 - 1 / 2 < (toFixedUnits v : ℚ) ∧
    (toFixedUnits v : ℚ) ≤ v * 10 ^ 6 + 1 / 2 ∧
    ∃ v1, fl64 (a / p) = .fin v1 ∧
      |v - a * 10 ^ 8 / p| ≤ ulp (v1 * 100000000) / 2 + 10 ^ 8 * (ulp (a / p) / 2) := by
  have h0 : 0 ≤ v := ethEquivalentOf_nonneg ha hp hv
  refine ⟨h0, ?_, toFixedUnits_gt h0, toFixedUnits_le h0, ethEquivalentOf_error hp hv⟩
  rw [getEthEquivalent_stores toNumber big w amount currency priceText s hs hcur, hA, hP, hv,
    toFixed6_fin big h0 hbig]

/-- The amended statement of C1 at the amount 1 and the price `2 ^ 45`. -/
theorem getEthEquivalent_rounds_to_nearest_witness :
    (0 : ℚ) ≤ 390625 / 137438953472 ∧
    (getEthEquivalent toNumberDigits (fun _ => "") (fun _ => .ok "35184372088832") "1" "INR"
        connected).1 =
      { connected with
          ethEquivalent := JsVal.str (fixedString (toFixedUnits (390625 / 137438953472))) } ∧
    (390625 / 137438953472 : ℚ) * 10 ^ 6 - 1 / 2 <
      (toFixedUnits (390625 / 137438953472) : ℚ) ∧
    (toFixedUnits (390625 / 137438953472) : ℚ) ≤
      (390625 / 137438953472 : ℚ) * 10 ^ 6 + 1 / 2 ∧
    ∃ v1, fl64 ((1 : ℚ) / 35184372088832) = .fin v1 ∧
      |(390625 / 137438953472 : ℚ) - 1 * 10 ^ 8 / 35184372088832| ≤
        ulp (v1 * 100000000) / 2 + 10 ^ 8 * (ulp ((1 : ℚ) / 35184372088832) / 2) :=
  getEthEquivalent_rounds_to_nearest toNumberDigits (fun _ => "")
    (fun _ => .ok "35184372088832") "1" "INR" "35184372088832" connected
    1 35184372088832 (390625 / 137438953472)
    (by decide) (Or.inl ⟨rfl, rfl⟩) toNumberDigits_one toNumberDigits_price
    (by norm_num) (by norm_num) ethEquivalentOf_example (by norm_num)

/-! ## Facts about the handlers -/

theorem getBalances_undefined (u : Web3Utils) (w : World) (a : Option String) (s : AppState) :
    getBalances u w true a none s = (s.fail "Error fetching balances: " undefinedUtils, []) := rfl

theorem getBalances_ethEquivalent (u : Web3Utils) (w : World) (ci : Bool) (a : Option String)
    (wi : Option Bool) (s : AppState) :
    (getBalances u w ci a wi s).1.ethEquivalent = s.ethEquivalent := by
  unfold getBalances
  cases ci <;> simp [AppState.fail]
  rcases wi with _ | _ | _ <;> simp
  split <;> try rfl
  split <;> try rfl
  split <;> try rfl
  split <;> rfl

theorem getBalances_calls (u : Web3Utils) (w : World) (ci : Bool) (a : Option String)
    (wi : Option Bool) (s : AppState) :
    ∀ c ∈ (getBalances u w ci a wi s).2, c.amount? = none := by
  unfold getBalances
  cases ci <;> simp
  rcases wi with _ | _ | _ <;> simp
  split <;> try simp [Call.amount?]
  split <;> try simp [Call.amount?]
  split <;> try simp [Call.amount?]
  split <;> simp [Call.amount?]

/-- Every call with an amount that `deposit` issues is the deposit itself, built
from the state as the source builds it, and a failure of that call ends the
handler in its `catch` block. -/
theorem deposit_calls (u : Web3Utils) (w : World) (s : AppState) (c : Call)
    (hc : c ∈ (deposit u w s).2) (hk : c.amount? ≠ none) :
    ∃ a, u.toWei s.ethEquivalent = .ok a ∧ c = .deposit s.currency s.account a ∧
      s.contract = true ∧ s.amount ≠ "" ∧ s.web3 = true ∧
      (∀ e, w c = .error e → deposit u w s = (s.fail "Error depositing funds: " e, [c])) := by
  unfold deposit at hc ⊢
  split_ifs at hc ⊢ with h1 h2
  · simp at hc
  · simp only [Bool.and_eq_true, bne_iff_ne, ne_eq] at h1
    simp only [Bool.not_eq_true', Bool.not_eq_false] at h2
    cases ht : u.toWei s.ethEquivalent with
    | error e => simp [ht] at hc
    | ok a =>
      simp only [ht] at hc ⊢
      cases hw : w (.deposit s.currency s.account a) with
      | error e =>
        simp only [hw, List.mem_singleton] at hc
        subst hc
        refine ⟨a, rfl, rfl, h1.1, h1.2, h2, ?_⟩
        intro e2 he2
        rw [hw] at he2
        cases he2
        rfl
      | ok r =>
        simp only [hw, List.mem_cons] at hc
        rcases hc with hc | hc
        · subst hc
          refine ⟨a, rfl, rfl, h1.1, h1.2, h2, ?_⟩
          intro e2 he2
          rw [hw] at he2
          cases he2
        · exact absurd (getBalances_calls _ _ _ _ _ _ c hc) hk
  · simp at hc

/-- Every call with an amount that `withdraw` issues is the withdrawal itself,
carrying `toWei` of the entered amount, and a failure of that call ends the
handler in its `catch` block. -/
theorem withdraw_calls (u : Web3Utils) (w : World) (s : AppState) (c : Call)
    (hc : c ∈ (withdraw u w s).2) (hk : c.amount? ≠ none) :
    ∃ a, u.toWei (.str s.amount) = .ok a ∧ c = .withdraw a s.currency s.account ∧
      s.contract = true ∧ s.amount ≠ "" ∧ s.web3 = true ∧
      (∀ e, w c = .error e → withdraw u w s = (s.fail "Error withdrawing funds: " e, [c])) := by
  unfold withdraw at hc ⊢
  split_ifs at hc ⊢ with h1 h2
  · simp at hc
  · simp only [Bool.and_eq_true, bne_iff_ne, ne_eq] at h1
    simp only [Bool.not_eq_true', Bool.not_eq_false] at h2
    cases ht : u.toWei (.str s.amount) with
    | error e => simp [ht] at hc
    | ok a =>
      simp only [ht] at hc ⊢
      cases hw : w (.withdraw a s.currency s.account) with
      | error e =>
        simp only [hw, List.mem_singleton] at hc
        subst hc
        refine ⟨a, rfl, rfl, h1.1, h1.2, h2, ?_⟩
        intro e2 he2
        rw [hw] at he2
        cases he2
        rfl
      | ok r =>
        simp only [hw, List.mem_cons] at hc
        rcases hc with hc | hc
        · subst hc
          refine ⟨a, rfl, rfl, h1.1, h1.2, h2, ?_⟩
          intro e2 he2
          rw [hw] at he2
          cases he2
        · exact absurd (getBalances_calls _ _ _ _ _ _ c hc) hk
  · simp at hc

/-- Every call that `sendCrossBorderPayment` issues is the payment itself, built
from the state as the source builds it.  When the call fails the handler ends in
its own `catch` block; when it succeeds the handler ends in the `catch` block of
`getBalances`, which was called without its third argument. -/
theorem sendCrossBorderPayment_calls (u : Web3Utils) (w : World) (s : AppState) (c : Call)
    (hc : c ∈ (sendCrossBorderPayment u w s).2) :
    ∃ a, u.toWei s.ethEquivalent = .ok a ∧
      c = .sendCrossBorderPayment s.receiver a s.currency (toCurrency s.currency) s.account ∧
      s.contract = true ∧ s.receiver ≠ "" ∧ s.amount ≠ "" ∧ s.web3 = true ∧
      (∀ e, w c = .error e →
        sendCrossBorderPayment u w s = (s.fail "Error sending payment: " e, [c])) ∧
      (∀ r, w c = .ok r →
        sendCrossBorderPayment u w s =
          (s.fail "Error fetching balances: " undefinedUtils, [c])) := by
  unfold sendCrossBorderPayment at hc ⊢
  split_ifs at hc ⊢ with h1 h2
  · simp at hc
  · simp only [Bool.and_eq_true, bne_iff_ne, ne_eq] at h1
    simp only [Bool.not_eq_true', Bool.not_eq_false] at h2
    cases ht : u.toWei s.ethEquivalent with
    | error e => simp [ht] at hc
    | ok a =>
      simp only [ht] at hc ⊢
      cases hw : w (.sendCrossBorderPayment s.receiver a s.currency (toCurrency s.currency)
          s.account) with
      | error e =>
        simp only [hw, List.mem_singleton] at hc
        subst hc
        refine ⟨a, rfl, rfl, h1.1.1, h1.1.2, h1.2, h2, ?_, ?_⟩
        · intro e2 he2
          rw [hw] at he2
          cases he2
          rfl
        · intro r hr
          rw [hw] at hr
          cases hr
      | ok r =>
        have hb : s.contract = true := h1.1.1
        simp only [hw, hb, getBalances_undefined, List.mem_singleton] at hc
        subst hc
        refine ⟨a, rfl, rfl, h1.1.1, h1.1.2, h1.2, h2, ?_, ?_⟩
        · intro e2 he2
          rw [hw] at he2
          cases he2
        · intro r2 _
          simp [hb, getBalances_undefined, AppState.fail]
  · simp at hc

theorem toCurrency_toCurrency (c : String) (h : c = "INR" ∨ c = "BDT") :
    toCurrency (toCurrency c) = c := by
  rcases h with h | h <;> subst h <;> decide

theorem step_ethEquivalent (u : Web3Utils) (w : World) (s : AppState) (ev : Event) :
    (step u w s ev).1.ethEquivalent = s.ethEquivalent := by
  cases ev with
  | init h e a =>
    simp only [step, init]
    split_ifs
    · cases e with
      | error m => rfl
      | ok x =>
        cases a with
        | error m => rfl
        | ok l => simp only [getBalances_ethEquivalent]
    · rfl
  | setAmount v => rfl
  | setCurrency v => rfl
  | setReceiver v => rfl
  | deposit =>
    simp only [step, deposit]
    split_ifs <;> try rfl
    split <;> try rfl
    split <;> try rfl
    simp only [getBalances_ethEquivalent]
  | withdraw =>
    simp only [step, withdraw]
    split_ifs <;> try rfl
    split <;> try rfl
    split <;> try rfl
    simp only [getBalances_ethEquivalent]
  | sendCrossBorderPayment =>
    simp only [step, sendCrossBorderPayment]
    split_ifs <;> try rfl
    split <;> try rfl
    split <;> try rfl
    simp only [getBalances_ethEquivalent]

theorem run_ethEquivalent (u : Web3Utils) (s : AppState) (evs : List (World × Event)) :
    (run u s evs).1.ethEquivalent = s.ethEquivalent := by
  induction evs generalizing s with
  | nil => rfl
  | cons we rest ih =>
    obtain ⟨w, e⟩ := we
    simp only [run]
    rw [ih, step_ethEquivalent]

/-- The amount of a call issued during one event is what `toWei` returned for the
`ethEquivalent` cell (deposit, payment) or for the entered amount (withdrawal). -/
theorem step_amounts (u : Web3Utils) (w : World) (s : AppState) (ev : Event) (c : Call)
    (a : ℤ) (hc : c ∈ (step u w s ev).2) (ha : c.amount? = some a) :
    u.toWei s.ethEquivalent = .ok a ∨ u.toWei (.str s.amount) = .ok a := by
  have hk : c.amount? ≠ none := by simp [ha]
  cases ev with
  | init h e x =>
    exfalso
    simp only [step, init] at hc
    split_ifs at hc
    · cases e with
      | error m => simp at hc
      | ok y =>
        cases x with
        | error m => simp at hc
        | ok l => exact hk (getBalances_calls _ _ _ _ _ _ c hc)
    · simp at hc
  | setAmount v => simp [step] at hc
  | setCurrency v => simp [step] at hc
  | setReceiver v => simp [step] at hc
  | deposit =>
    obtain ⟨b, hb, rfl, -⟩ := deposit_calls u w s c hc hk
    simp only [Call.amount?, Option.some.injEq] at ha
    exact Or.inl (ha ▸ hb)
  | withdraw =>
    obtain ⟨b, hb, rfl, -⟩ := withdraw_calls u w s c hc hk
    simp only [Call.amount?, Option.some.injEq] at ha
    exact Or.inr (ha ▸ hb)
  | sendCrossBorderPayment =>
    obtain ⟨b, hb, rfl, -⟩ := sendCrossBorderPayment_calls u w s c hc
    simp only [Call.amount?, Option.some.injEq] at ha
    exact Or.inl (ha ▸ hb)

/-- With the contract and web3 set, an amount entered and `toWei` returning for
the `ethEquivalent` cell, the first thing `deposit` does to the contract is the
deposit call with that value. -/
theorem deposit_issues (u : Web3Utils) (w : World) (s : AppState) (v : ℤ)
    (h1 : s.contract = true) (h2 : s.amount ≠ "") (h3 : s.web3 = true)
    (h4 : u.toWei s.ethEquivalent = .ok v) :
    (deposit u w s).2.head? = some (.deposit s.currency s.account v) := by
  have hg : (s.contract && s.amount != "") = true := by simp [h1, h2]
  unfold deposit
  rw [if_pos hg, if_neg (by simp [h3])]
  simp only [h4]
  cases w (.deposit s.currency s.account v) <;> rfl

/-- With the contract and web3 set, an amount entered and `toWei` returning for
the entered amount, the first thing `withdraw` does to the contract is the
withdrawal call with that amount. -/
theorem withdraw_issues (u : Web3Utils) (w : World) (s : AppState) (a : ℤ)
    (h1 : s.contract = true) (h2 : s.amount ≠ "") (h3 : s.web3 = true)
    (h4 : u.toWei (.str s.amount) = .ok a) :
    (withdraw u w s).2.head? = some (.withdraw a s.currency s.account) := by
  have hg : (s.contract && s.amount != "") = true := by simp [h1, h2]
  unfold withdraw
  rw [if_pos hg, if_neg (by simp [h3])]
  simp only [h4]
  cases w (.withdraw a s.currency s.account) <;> rfl

/-- With the contract and web3 set, a receiver and an amount entered and `toWei`
returning for the `ethEquivalent` cell, the first thing `sendCrossBorderPayment`
does to the contract is the payment call with that amount. -/
theorem payment_issues (u : Web3Utils) (w : World) (s : AppState) (a : ℤ)
    (h1 : s.contract = true) (h2 : s.receiver ≠ "") (h3 : s.amount ≠ "")
    (h4 : s.web3 = true) (h5 : u.toWei s.ethEquivalent = .ok a) :
    (sendCrossBorderPayment u w s).2.head? =
      some (.sendCrossBorderPayment s.receiver a s.currency (toCurrency s.currency)
        s.account) := by
  have hg : (s.contract && s.receiver != "" && s.amount != "") = true := by
    simp [h1, h2, h3]
  unfold sendCrossBorderPayment
  rw [if_pos hg, if_neg (by simp [h4])]
  simp only [h5]
  cases w (.sendCrossBorderPayment s.receiver a s.currency (toCurrency s.currency)
    s.account) <;> rfl

/-- The converter `toWeiString` returns a negative number only for a text that
starts with, and so contains, a minus sign. -/
theorem toWeiString_neg (t : String) (b : ℤ) (h : toWeiString t = .ok b) (hb : b < 0) :
    '-' ∈ t.toList := by
  by_cases hn : (t.toList.head? == some '-') = true
  · have hh : t.toList.head? = some '-' := by simpa using hn
    exact List.mem_of_mem_head? hh
  · exfalso
    have hf : (t.toList.head? == some '-') = false := by simpa using hn
    unfold toWeiString at h
    simp only [hf, Bool.false_eq_true, if_false] at h
    split_ifs at h
    simp only [Except.ok.injEq] at h
    have h0 : (0 : ℤ) ≤ (digitsToNat (List.takeWhile (fun c => c != '.') t.toList) : ℤ) *
        10 ^ 18 +
        (digitsToNat ((List.dropWhile (fun c => c != '.') t.toList).drop 1 ++
          List.replicate (18 - ((List.dropWhile (fun c => c != '.') t.toList).drop 1).length)
            '0') : ℤ) :=
      Int.add_nonneg (Int.mul_nonneg (Int.ofNat_nonneg _) (by norm_num)) (Int.ofNat_nonneg _)
    omega

/-! ## C2: the sign of the amounts -/

/-- C2, as stated, fails: after the entry of the amount -1 a click on Withdraw
issues `withdraw` with the negative amount `-1000000000000000000`. -/
theorem withdraw_sends_negative_amount :
    (run web3 AppState.initial [connect, (calm, .setAmount "-1"), (calm, .withdraw)]).2 =
      [.balances (some "0xA1") "0x494e52", .balances (some "0xA1") "0x424454",
       .withdraw (-1000000000000000000) "INR" (some "0xA1"),
       .balances (some "0xA1") "0x494e52", .balances (some "0xA1") "0x424454"] := by
  rfl

/-- C2, amended: in every state reached from the initial state, each amount the
client passes is the integer `toWei` returned, handler by handler.  `deposit`
and `sendCrossBorderPayment` carry `toWei` of the number 0, that is 0, whatever
was entered.  `withdraw` carries `toWei` of the entered amount itself, which is
non-negative whenever the entry contains no minus sign; the client checks no
sign of its own.  In each handler the call is issued as soon as the instances
are set, the inputs are not empty and `toWei` returns.  The two conditions on
`toWei` are facts of the library: it maps the number 0 to 0, and it returns a
negative number only for a text that contains a minus sign. -/
theorem amounts_by_handler (u : Web3Utils) (w : World) (evs : List (World × Event))
    (s : AppState) (hs : s = (run u AppState.initial evs).1)
    (hz : ∀ b, u.toWei .zero = .ok b → b = 0)
    (hm : ∀ t b, u.toWei (.str t) = .ok b → b < 0 → '-' ∈ t.toList) :
    (∀ c ∈ (deposit u w s).2, c.amount? ≠ none → c = .deposit s.currency s.account 0) ∧
    (∀ c ∈ (sendCrossBorderPayment u w s).2, c.amount? ≠ none →
      c = .sendCrossBorderPayment s.receiver 0 s.currency (toCurrency s.currency)
        s.account) ∧
    (∀ c ∈ (withdraw u w s).2, c.amount? ≠ none →
      ∃ a, u.toWei (.str s.amount) = .ok a ∧ c = .withdraw a s.currency s.account ∧
        ('-' ∉ s.amount.toList → 0 ≤ a)) ∧
    (s.contract = true → s.amount ≠ "" → s.web3 = true → u.toWei .zero = .ok 0 →
      (deposit u w s).2.head? = some (.deposit s.currency s.account 0)) ∧
    (s.contract = true → s.receiver ≠ "" → s.amount ≠ "" → s.web3 = true →
      u.toWei .zero = .ok 0 →
      (sendCrossBorderPayment u w s).2.head? =
        some (.sendCrossBorderPayment s.receiver 0 s.currency (toCurrency s.currency)
          s.account)) ∧
    (∀ a, s.contract = true → s.amount ≠ "" → s.web3 = true →
      u.toWei (.str s.amount) = .ok a →
      (withdraw u w s).2.head? = some (.withdraw a s.currency s.account)) := by
  have he : s.ethEquivalent = .zero := by rw [hs]; exact run_ethEquivalent u _ evs
  refine ⟨?_, ?_, ?_, ?_, ?_, ?_⟩
  · intro c hc hk
    obtain ⟨a, ha, hca, -⟩ := deposit_calls u w s c hc hk
    rw [he] at ha
    rw [hca, hz a ha]
  · intro c hc _
    obtain ⟨a, ha, hca, -⟩ := sendCrossBorderPayment_calls u w s c hc
    rw [he] at ha
    rw [hca, hz a ha]
  · intro c hc hk
    obtain ⟨a, ha, hca, -⟩ := withdraw_calls u w s c hc hk
    refine ⟨a, ha, hca, fun hno => ?_⟩
    by_contra hlt
    exact hno (hm s.amount a ha (not_le.mp hlt))
  · intro h1 h2 h3 h4
    exact deposit_issues u w s 0 h1 h2 h3 (by rw [he]; exact h4)
  · intro h1 h2 h3 h4 h5
    exact payment_issues u w s 0 h1 h2 h3 h4 (by rw [he]; exact h5)
  · intro a h1 h2 h3 h4
    exact withdraw_issues u w s a h1 h2 h3 h4

/-- The amended statement of C2 in the state reached by connecting, entering
the amount 5 and the receiver 0xB2: the deposit and the payment carry 0, the
withdrawal carries `5000000000000000000`. -/
theorem amounts_by_handler_witness :
    (deposit web3 calm
        { connected with amount := "5", receiver := "0xB2" }).2.head? =
      some (.deposit "INR" (some "0xA1") 0) ∧
    (sendCrossBorderPayment web3 calm
        { connected with amount := "5", receiver := "0xB2" }).2.head? =
      some (.sendCrossBorderPayment "0xB2" 0 "INR" "BDT" (some "0xA1")) ∧
    (withdraw web3 calm
        { connected with amount := "5", receiver := "0xB2" }).2.head? =
      some (.withdraw 5000000000000000000 "INR" (some "0xA1")) ∧
    ∃ a, web3.toWei (.str "5") = .ok a ∧
      Call.withdraw 5000000000000000000 "INR" (some "0xA1") =
        .withdraw a "INR" (some "0xA1") ∧
      ('-' ∉ "5".toList → 0 ≤ a) :=
  have h := amounts_by_handler web3 calm
    [connect, (calm, .setAmount "5"), (calm, .setReceiver "0xB2")]
    { connected with amount := "5", receiver := "0xB2" } (by decide)
    (fun b hb => by
      have h : (Except.ok 0 : Except String ℤ) = .ok b := hb
      cases h
      rfl)
    (fun t b hb hlt => toWeiString_neg t b hb hlt)
  ⟨h.2.2.2.1 rfl (by decide) rfl rfl,
   h.2.2.2.2.1 rfl (by decide) (by decide) rfl rfl,
   h.2.2.2.2.2 5000000000000000000 rfl (by decide) rfl rfl,
   h.2.2.1 (.withdraw 5000000000000000000 "INR" (some "0xA1")) (by decide) (by decide)⟩

/-! ## C3: when a payment is issued -/

/-- C3, as stated, fails: a payment to the connected account itself, and a
payment with the entered amount -5, both reach the contract. -/
theorem payment_to_self_is_issued :
    (run web3 AppState.initial
        [connect, (calm, .setReceiver "0xA1"), (calm, .setAmount "5"),
          (calm, .sendCrossBorderPayment)]).2 =
      [.balances (some "0xA1") "0x494e52", .balances (some "0xA1") "0x424454",
       .sendCrossBorderPayment "0xA1" 0 "INR" "BDT" (some "0xA1")] ∧
    (run web3 AppState.initial
        [connect, (calm, .setReceiver "0xB2"), (calm, .setAmount "-5"),
          (calm, .sendCrossBorderPayment)]).2 =
      [.balances (some "0xA1") "0x494e52", .balances (some "0xA1") "0x424454",
       .sendCrossBorderPayment "0xB2" 0 "INR" "BDT" (some "0xA1")] :=
  ⟨rfl, rfl⟩

/-- C3, amended: `sendCrossBorderPayment` issues the contract call exactly when
the contract and web3 instances are set, the receiver and the amount are not
empty and `toWei` returns for the `ethEquivalent` cell; the receiver is not
compared with the account and the amount is not compared with zero. -/
theorem sendCrossBorderPayment_issues_iff (u : Web3Utils) (w : World) (s : AppState) :
    (∃ c, c ∈ (sendCrossBorderPayment u w s).2) ↔
      (s.contract = true ∧ s.receiver ≠ "" ∧ s.amount ≠ "" ∧ s.web3 = true ∧
        ∃ a, u.toWei s.ethEquivalent = .ok a) := by
  constructor
  · rintro ⟨c, hc⟩
    obtain ⟨a, ha, -, h1, h2, h3, h4, -⟩ := sendCrossBorderPayment_calls u w s c hc
    exact ⟨h1, h2, h3, h4, a, ha⟩
  · rintro ⟨h1, h2, h3, h4, a, ha⟩
    refine ⟨.sendCrossBorderPayment s.receiver a s.currency (toCurrency s.currency) s.account, ?_⟩
    have hg : (s.contract && s.receiver != "" && s.amount != "") = true := by
      simp [h1, h2, h3]
    unfold sendCrossBorderPayment
    rw [if_pos hg, if_neg (by simp [h4])]
    simp only [ha]
    cases w (.sendCrossBorderPayment s.receiver a s.currency (toCurrency s.currency)
      s.account) <;> simp

/-! ## C4: the encoding of the currency code -/

/-- C4 fails on the code: in one session `getBalances` passes the hexadecimal
codes `0x494e52` and `0x424454`, while `deposit`, `withdraw` and
`sendCrossBorderPayment` pass the plain texts INR and BDT. -/
theorem handlers_pass_unencoded_currency :
    (run web3 AppState.initial
        [connect, (calm, .setAmount "5"), (calm, .deposit), (calm, .withdraw),
          (calm, .setReceiver "0xB2"), (calm, .sendCrossBorderPayment)]).2 =
      [.balances (some "0xA1") "0x494e52", .balances (some "0xA1") "0x424454",
       .deposit "INR" (some "0xA1") 0,
       .balances (some "0xA1") "0x494e52", .balances (some "0xA1") "0x424454",
       .withdraw 5000000000000000000 "INR" (some "0xA1"),
       .balances (some "0xA1") "0x494e52", .balances (some "0xA1") "0x424454",
       .sendCrossBorderPayment "0xB2" 0 "INR" "BDT" (some "0xA1")] ∧
    web3.asciiToHex "INR" = "0x494e52" ∧ web3.asciiToHex "BDT" = "0x424454" :=
  ⟨rfl, rfl, rfl⟩

/-! ## C5: which amount deposit and withdraw send -/

/-- C5, as stated, fails: with the amount 5 entered, `withdraw` sends
`toWei` of the entry, `5000000000000000000`, while the `ethEquivalent` cell
still holds 0, whose `toWei` is 0. -/
theorem withdraw_sends_entered_amount :
    (run web3 AppState.initial [connect, (calm, .setAmount "5"), (calm, .withdraw)]).2 =
      [.balances (some "0xA1") "0x494e52", .balances (some "0xA1") "0x424454",
       .withdraw 5000000000000000000 "INR" (some "0xA1"),
       .balances (some "0xA1") "0x494e52", .balances (some "0xA1") "0x424454"] ∧
    (run web3 AppState.initial
      [connect, (calm, .setAmount "5"), (calm, .withdraw)]).1.ethEquivalent = .zero ∧
    web3.toWei .zero = .ok 0 :=
  ⟨rfl, rfl, rfl⟩

/-- C5, amended: the value `deposit` sends is `toWei` of the `ethEquivalent`
state cell, and the amount `withdraw` sends is `toWei` of the entered amount
itself.  Each handler issues its call exactly when the contract and web3
instances are set, the amount is not empty and that `toWei` returns; the call
is then the first one issued and the only one that carries an amount. -/
theorem deposit_withdraw_amounts (u : Web3Utils) (w : World) (s : AppState) :
    (∀ c, (c ∈ (deposit u w s).2 ∧ c.amount? ≠ none) ↔
      (s.contract = true ∧ s.amount ≠ "" ∧ s.web3 = true ∧
        ∃ v, u.toWei s.ethEquivalent = .ok v ∧ c = .deposit s.currency s.account v)) ∧
    (∀ v, s.contract = true → s.amount ≠ "" → s.web3 = true →
      u.toWei s.ethEquivalent = .ok v →
      (deposit u w s).2.head? = some (.deposit s.currency s.account v)) ∧
    (∀ c, (c ∈ (withdraw u w s).2 ∧ c.amount? ≠ none) ↔
      (s.contract = true ∧ s.amount ≠ "" ∧ s.web3 = true ∧
        ∃ a, u.toWei (.str s.amount) = .ok a ∧ c = .withdraw a s.currency s.account)) ∧
    (∀ a, s.contract = true → s.amount ≠ "" → s.web3 = true →
      u.toWei (.str s.amount) = .ok a →
      (withdraw u w s).2.head? = some (.withdraw a s.currency s.account)) := by
  refine ⟨fun c => ⟨?_, ?_⟩, ?_, fun c => ⟨?_, ?_⟩, ?_⟩
  · rintro ⟨hc, hk⟩
    obtain ⟨v, hv, hcv, h1, h2, h3, -⟩ := deposit_calls u w s c hc hk
    exact ⟨h1, h2, h3, v, hv, hcv⟩
  · rintro ⟨h1, h2, h3, v, hv, hcv⟩
    subst hcv
    exact ⟨List.mem_of_mem_head? (deposit_issues u w s v h1 h2 h3 hv), by simp [Call.amount?]⟩
  · intro v h1 h2 h3 hv
    exact deposit_issues u w s v h1 h2 h3 hv
  · rintro ⟨hc, hk⟩
    obtain ⟨a, ha, hca, h1, h2, h3, -⟩ := withdraw_calls u w s c hc hk
    exact ⟨h1, h2, h3, a, ha, hca⟩
  · rintro ⟨h1, h2, h3, a, ha, hca⟩
    subst hca
    exact ⟨List.mem_of_mem_head? (withdraw_issues u w s a h1 h2 h3 ha), by simp [Call.amount?]⟩
  · intro a h1 h2 h3 ha
    exact withdraw_issues u w s a h1 h2 h3 ha

/-- The amended statement of C5 for the connected account with the amount 5
entered: `deposit` issues its call with `toWei` of the cell, 0, and `withdraw`
issues its call with `toWei` of the entry, `5000000000000000000`. -/
theorem deposit_withdraw_amounts_witness :
    (deposit web3 calm { connected with amount := "5" }).2.head? =
      some (.deposit "INR" (some "0xA1") 0) ∧
    (withdraw web3 calm { connected with amount := "5" }).2.head? =
      some (.withdraw 5000000000000000000 "INR" (some "0xA1")) :=
  ⟨(deposit_withdraw_amounts web3 calm { connected with amount := "5" }).2.1 0
      rfl (by decide) rfl rfl,
   (deposit_withdraw_amounts web3 calm { connected with amount := "5" }).2.2.2
      5000000000000000000 rfl (by decide) rfl rfl⟩

/-! ## C6: the balances after a payment -/

/-- C6 fails on the code: when the payment call is issued and succeeds, the
handler ends in the `catch` block of `getBalances`, which it called without the
web3 instance.  No `balances` call is issued, `balanceINR` and `balanceBDT` keep
their values, and the final message is the error message of `getBalances`. -/
theorem payment_does_not_refresh_balances (u : Web3Utils) (w : World) (s : AppState)
    (c : Call) (r : String) (hc : c ∈ (sendCrossBorderPayment u w s).2) (hw : w c = .ok r) :
    sendCrossBorderPayment u w s =
      ({ s with
          message := "Error fetching balances: " ++ undefinedUtils,
          messageType := "error" }, [c]) ∧
    (sendCrossBorderPayment u w s).1.balanceINR = s.balanceINR ∧
    (sendCrossBorderPayment u w s).1.balanceBDT = s.balanceBDT := by
  obtain ⟨a, -, -, -, -, -, -, -, hok⟩ := sendCrossBorderPayment_calls u w s c hc
  rw [hok r hw]
  exact ⟨rfl, rfl, rfl⟩

/-- The failure of C6 in a session: the contract holds the balance
`7000000000000000000` for both currencies after the payment, the component
still shows 0. -/
theorem payment_does_not_refresh_balances_witness :
    sendCrossBorderPayment web3 (fun _ => .ok "7000000000000000000")
        { connected with receiver := "0xB2", amount := "5" } =
      ({ connected with
          receiver := "0xB2", amount := "5",
          message := "Error fetching balances: " ++ undefinedUtils,
          messageType := "error" },
        [.sendCrossBorderPayment "0xB2" 0 "INR" "BDT" (some "0xA1")]) ∧
    (sendCrossBorderPayment web3 (fun _ => .ok "7000000000000000000")
        { connected with receiver := "0xB2", amount := "5" }).1.balanceINR = .str "0" ∧
    (sendCrossBorderPayment web3 (fun _ => .ok "7000000000000000000")
        { connected with receiver := "0xB2", amount := "5" }).1.balanceBDT = .str "0" :=
  payment_does_not_refresh_balances web3 (fun _ => .ok "7000000000000000000")
    { connected with receiver := "0xB2", amount := "5" }
    (.sendCrossBorderPayment "0xB2" 0 "INR" "BDT" (some "0xA1")) "7000000000000000000"
    (by decide) rfl

/-- After a deposit in the same world the component shows the balances the
contract holds: the sibling path passes the web3 instance. -/
theorem deposit_refreshes_balances :
    (deposit web3 (fun _ => .ok "7000000000000000000")
        { connected with amount := "5" }).1.balanceINR = .str "7" ∧
    (deposit web3 (fun _ => .ok "7000000000000000000")
        { connected with amount := "5" }).1.balanceBDT = .str "7" ∧
    (deposit web3 (fun _ => .ok "7000000000000000000")
        { connected with amount := "5" }).1.messageType = "success" :=
  ⟨rfl, rfl, rfl⟩

/-! ## C7: the pair of currencies of a payment -/

/-- C7: when the selected currency is INR or BDT, the payment the client issues
converts from the selected currency to the other one: the target is again INR or
BDT, differs from the source, and choosing again from the target gives the
source back. -/
theorem payment_currency_pair (u : Web3Utils) (w : World) (s : AppState) (c : Call)
    (hcur : s.currency = "INR" ∨ s.currency = "BDT")
    (hc : c ∈ (sendCrossBorderPayment u w s).2) :
    ∃ r a t src, c = .sendCrossBorderPayment r a s.currency t src ∧
      (t = "INR" ∨ t = "BDT") ∧ t ≠ s.currency ∧ toCurrency t = s.currency ∧
      (s.currency = "INR" → t = "BDT") ∧ (s.currency = "BDT" → t = "INR") := by
  obtain ⟨a, -, hcall, -⟩ := sendCrossBorderPayment_calls u w s c hc
  refine ⟨s.receiver, a, toCurrency s.currency, s.account, hcall, ?_⟩
  rcases hcur with h | h <;> rw [h] <;> decide

/-- C7 at a payment from INR. -/
theorem payment_currency_pair_witness :
    ∃ r a t src,
      Call.sendCrossBorderPayment "0xB2" 0 "INR" "BDT" (some "0xA1") =
        .sendCrossBorderPayment r a
          ({ connected with receiver := "0xB2", amount := "5" } : AppState).currency t src ∧
      (t = "INR" ∨ t = "BDT") ∧
      t ≠ ({ connected with receiver := "0xB2", amount := "5" } : AppState).currency ∧
      toCurrency t = ({ connected with receiver := "0xB2", amount := "5" } : AppState).currency ∧
      (({ connected with receiver := "0xB2", amount := "5" } : AppState).currency = "INR" →
        t = "BDT") ∧
      (({ connected with receiver := "0xB2", amount := "5" } : AppState).currency = "BDT" →
        t = "INR") :=
  payment_currency_pair web3 calm { connected with receiver := "0xB2", amount := "5" }
    (.sendCrossBorderPayment "0xB2" 0 "INR" "BDT" (some "0xA1")) (by decide) (by decide)

/-! ## C8: conservation -/

/-- C8: for positive prices, the credited amount never exceeds the value of the
native equivalent, the native equivalent never exceeds the value of the debited
amount, and each of the two conversions loses less than one unit of its
result. -/
theorem conversion_conserves (amount priceFrom priceTo : ℕ) (hf : 0 < priceFrom) :
    creditedAmount (nativeEquivalent amount priceFrom) priceTo * scaleFactor ≤
      nativeEquivalent amount priceFrom * priceTo ∧
    nativeEquivalent amount priceFrom * priceFrom ≤ amount * scaleFactor ∧
    amount * scaleFactor < (nativeEquivalent amount priceFrom + 1) * priceFrom ∧
    nativeEquivalent amount priceFrom * priceTo <
      (creditedAmount (nativeEquivalent amount priceFrom) priceTo + 1) * scaleFactor := by
  have hs : 0 < scaleFactor := by unfold scaleFactor; norm_num
  refine ⟨?_, ?_, ?_, ?_⟩
  · exact Nat.div_mul_le_self _ _
  · exact Nat.div_mul_le_self _ _
  · unfold nativeEquivalent
    have := Nat.lt_div_mul_add (a := amount * scaleFactor) hf
    rwa [Nat.add_mul, Nat.one_mul]
  · unfold creditedAmount
    have := Nat.lt_div_mul_add (a := amount * scaleFactor / priceFrom * priceTo) hs
    unfold nativeEquivalent
    rwa [Nat.add_mul, Nat.one_mul]

/-- C8 for the debit of `10 ^ 18` units at the price `3 * 10 ^ 13`, credited at
the price `4 * 10 ^ 13`. -/
theorem conversion_conserves_witness :
    creditedAmount (nativeEquivalent (10 ^ 18) (3 * 10 ^ 13)) (4 * 10 ^ 13) * scaleFactor ≤
      nativeEquivalent (10 ^ 18) (3 * 10 ^ 13) * (4 * 10 ^ 13) ∧
    nativeEquivalent (10 ^ 18) (3 * 10 ^ 13) * (3 * 10 ^ 13) ≤ 10 ^ 18 * scaleFactor ∧
    10 ^ 18 * scaleFactor < (nativeEquivalent (10 ^ 18) (3 * 10 ^ 13) + 1) * (3 * 10 ^ 13) ∧
    nativeEquivalent (10 ^ 18) (3 * 10 ^ 13) * (4 * 10 ^ 13) <
      (creditedAmount (nativeEquivalent (10 ^ 18) (3 * 10 ^ 13)) (4 * 10 ^ 13) + 1) *
        scaleFactor :=
  conversion_conserves (10 ^ 18) (3 * 10 ^ 13) (4 * 10 ^ 13) (by norm_num)

/-! ## C9: a failing contract call -/

/-- C9: when the contract call issued by `deposit`, `withdraw` or
`sendCrossBorderPayment` fails with the message `e`, the handler ends there:
the failing call is the only call issued (no `balances` call follows), the
message is the text of the handler followed by `e`, the message type is error,
and every other state cell keeps its value. -/
theorem failed_call_aborts (u : Web3Utils) (w : World) (s : AppState) (c : Call)
    (e : String) (hk : c.amount? ≠ none) (hw : w c = .error e) :
    (c ∈ (deposit u w s).2 →
      deposit u w s =
        ({ s with message := "Error depositing funds: " ++ e, messageType := "error" },
          [c])) ∧
    (c ∈ (withdraw u w s).2 →
      withdraw u w s =
        ({ s with message := "Error withdrawing funds: " ++ e, messageType := "error" },
          [c])) ∧
    (c ∈ (sendCrossBorderPayment u w s).2 →
      sendCrossBorderPayment u w s =
        ({ s with message := "Error sending payment: " ++ e, messageType := "error" },
          [c])) := by
  refine ⟨fun hc => ?_, fun hc => ?_, fun hc => ?_⟩
  · obtain ⟨a, -, -, -, -, -, h⟩ := deposit_calls u w s c hc hk
    exact h e hw
  · obtain ⟨a, -, -, -, -, -, h⟩ := withdraw_calls u w s c hc hk
    exact h e hw
  · obtain ⟨a, -, -, -, -, -, -, h, -⟩ := sendCrossBorderPayment_calls u w s c hc
    exact h e hw

/-- C9 in a world whose contract reverts: the deposit of the connected account
fails, and so do its withdrawal and its payment. -/
theorem failed_call_aborts_witness :
    deposit web3 reverting { connected with amount := "5" } =
      ({ connected with
          amount := "5",
          message := "Error depositing funds: execution reverted",
          messageType := "error" },
        [.deposit "INR" (some "0xA1") 0]) ∧
    withdraw web3 reverting { connected with amount := "5" } =
      ({ connected with
          amount := "5",
          message := "Error withdrawing funds: execution reverted",
          messageType := "error" },
        [.withdraw 5000000000000000000 "INR" (some "0xA1")]) ∧
    sendCrossBorderPayment web3 reverting { connected with amount := "5", receiver := "0xB2" } =
      ({ connected with
          amount := "5", receiver := "0xB2",
          message := "Error sending payment: execution reverted",
          messageType := "error" },
        [.sendCrossBorderPayment "0xB2" 0 "INR" "BDT" (some "0xA1")]) :=
  ⟨(failed_call_aborts web3 reverting { connected with amount := "5" }
      (.deposit "INR" (some "0xA1") 0) "execution reverted" (by decide) rfl).1 (by decide),
   (failed_call_aborts web3 reverting { connected with amount := "5" }
      (.withdraw 5000000000000000000 "INR" (some "0xA1")) "execution reverted"
      (by decide) rfl).2.1 (by decide),
   (failed_call_aborts web3 reverting { connected with amount := "5", receiver := "0xB2" }
      (.sendCrossBorderPayment "0xB2" 0 "INR" "BDT" (some "0xA1")) "execution reverted"
      (by decide) rfl).2.2 (by decide)⟩

/-! ## C10: the `ethEquivalent` cell -/

theorem run_calls (u : Web3Utils) (s : AppState) (evs : List (World × Event)) (c : Call)
    (a : ℤ) (hc : c ∈ (run u s evs).2) (hd : c.amount? = some a)
    (hw : ∀ cur src b, c ≠ .withdraw b cur src) : u.toWei s.ethEquivalent = .ok a := by
  induction evs generalizing s with
  | nil => simp [run] at hc
  | cons we rest ih =>
    obtain ⟨w, ev⟩ := we
    simp only [run, List.mem_append] at hc
    rcases hc with hc | hc
    · have hk : c.amount? ≠ none := by simp [hd]
      cases ev with
      | init h e x =>
        exfalso
        simp only [step, init] at hc
        split_ifs at hc
        · cases e with
          | error m => simp at hc
          | ok y =>
            cases x with
            | error m => simp at hc
            | ok l => exact hk (getBalances_calls _ _ _ _ _ _ c hc)
        · simp at hc
      | setAmount v => simp [step] at hc
      | setCurrency v => simp [step] at hc
      | setReceiver v => simp [step] at hc
      | deposit =>
        obtain ⟨b, hb, rfl, -⟩ := deposit_calls u w s c hc hk
        simp only [Call.amount?, Option.some.injEq] at hd
        exact hd ▸ hb
      | withdraw =>
        obtain ⟨b, hb, rfl, -⟩ := withdraw_calls u w s c hc hk
        exact absurd rfl (hw _ _ b)
      | sendCrossBorderPayment =>
        obtain ⟨b, hb, rfl, -⟩ := sendCrossBorderPayment_calls u w s c hc
        simp only [Call.amount?, Option.some.injEq] at hd
        exact hd ▸ hb
    · have := ih (step u w s ev).1 hc
      rwa [step_ethEquivalent] at this

/-- C10: in every state reached from the initial state by the mount effect, the
edits and the three buttons, `ethEquivalent` still holds the number 0, and every
`deposit` and `sendCrossBorderPayment` call issued on the way carries the amount
`toWei` returns for 0, which is 0. -/
theorem ethEquivalent_stays_zero (u : Web3Utils) (evs : List (World × Event))
    (hz : ∀ a, u.toWei .zero = .ok a → a = 0) :
    (run u AppState.initial evs).1.ethEquivalent = .zero ∧
    ∀ c ∈ (run u AppState.initial evs).2,
      (∀ cur src v, c = .deposit cur src v → v = 0) ∧
      (∀ r a f t src, c = .sendCrossBorderPayment r a f t src → a = 0) := by
  refine ⟨run_ethEquivalent u _ evs, fun c hc => ⟨?_, ?_⟩⟩
  · intro cur src v hcv
    refine hz v (run_calls u _ evs c v hc (by simp [hcv, Call.amount?]) ?_)
    intro cur2 src2 b hb
    rw [hcv] at hb
    cases hb
  · intro r a f t src hcv
    refine hz a (run_calls u _ evs c a hc (by simp [hcv, Call.amount?]) ?_)
    intro cur2 src2 b hb
    rw [hcv] at hb
    cases hb

/-- C10 for a session with a deposit and a payment of the entered amount 5. -/
theorem ethEquivalent_stays_zero_witness :
    (run web3 AppState.initial
      [connect, (calm, .setAmount "5"), (calm, .deposit), (calm, .setReceiver "0xB2"),
        (calm, .sendCrossBorderPayment)]).1.ethEquivalent = .zero ∧
    ∀ c ∈ (run web3 AppState.initial
      [connect, (calm, .setAmount "5"), (calm, .deposit), (calm, .setReceiver "0xB2"),
        (calm, .sendCrossBorderPayment)]).2,
      (∀ cur src v, c = .deposit cur src v → v = 0) ∧
      (∀ r a f t src, c = .sendCrossBorderPayment r a f t src → a = 0) :=
  ethEquivalent_stays_zero web3
    [connect, (calm, .setAmount "5"), (calm, .deposit), (calm, .setReceiver "0xB2"),
      (calm, .sendCrossBorderPayment)]
    (fun a ha => by
      have h : (Except.ok 0 : Except String ℤ) = .ok a := ha
      cases h
      rfl)

end CryptoBridge
